import Mathlib

/-!
Verification of the MP3Reader tag/frame parsing engine (mp3_reader.hpp).

The byte buffer loaded by MP3Reader::load is modelled as a `List Nat` whose
entries are the bytes of the file (uint8 values, so below 256 for any buffer
produced by the loader).  All parsing structures in the source are non-owning
pointers into this buffer; the model represents each pointer by its byte
offset from the start of the buffer.

Reads the C++ code performs through such pointers are modelled with
`List.getD buf i 0`: an in-bounds read yields the byte, while an out-of-bounds
read (undefined behavior in the source) yields the don't-care value 0.
Companion definitions record which offsets a routine dereferences so that
out-of-bounds accesses can be exhibited explicitly.

Two loops of the source are not structurally bounded:
the frame walker advances a uint32 position by `10 + frame_size` modulo 2^32,
so it can revisit positions and in the worst case never terminates.  The model
gives the walker a fuel of 2^32 recursion steps; since the position is a
uint32 value checked against a fixed bound, every terminating execution of the
C++ loop performs at most 2^32 iterations, hence the fuel is exact for all
terminating runs and truncates only runs that never terminate.
-/

namespace MP3ReaderModel

/-- Source getID3v1Tag returns a pointer to the trailing 128-byte block when
the buffer holds at least 128 bytes and the three bytes there are the letters
T, A, G (the strcmp against the copied, NUL-padded 3 bytes succeeds exactly
when the three bytes are those letters).  The model returns the byte offset of
the block instead of the pointer; none models the nullptr result. -/
def getID3v1Tag (buf : List Nat) : Option Nat :=
  if buf.length < 128 then none
  else
    let p := buf.length - 128
    if buf.getD p 0 = 84 ∧ buf.getD (p + 1) 0 = 65 ∧ buf.getD (p + 2) 0 = 71 then
      some p
    else none

/-- Source size7bitsToNormal: the synchsafe codec
(size[0] shifted 21) or (size[1] shifted 14) or (size[2] shifted 7) or size[3].
The source performs no masking of high bits. -/
def size7bitsToNormal (b0 b1 b2 b3 : Nat) : Nat :=
  (b0 <<< 21) ||| (b1 <<< 14) ||| (b2 <<< 7) ||| b3

/-- Source size8bitsToNormal: the plain big-endian codec
(size[0] shifted 24) or (size[1] shifted 16) or (size[2] shifted 8) or size[3]. -/
def size8bitsToNormal (b0 b1 b2 b3 : Nat) : Nat :=
  (b0 <<< 24) ||| (b1 <<< 16) ||| (b2 <<< 8) ||| b3

/-- Source getTagSize: synchsafe decoding of the four size bytes of the
ID3v2 tag header located at offset tagPos (its size field starts at byte 6). -/
def getTagSize (buf : List Nat) (tagPos : Nat) : Nat :=
  size7bitsToNormal (buf.getD (tagPos + 6) 0) (buf.getD (tagPos + 7) 0)
    (buf.getD (tagPos + 8) 0) (buf.getD (tagPos + 9) 0)

/-- Source getFrameSize: the frame size bytes (bytes 4..7 of the frame header
at framePos) are decoded with the synchsafe codec when the tag's major version
byte (byte 3 of the tag header at tagPos) equals 4, and with the plain 8-bit
codec otherwise. -/
def getFrameSize (buf : List Nat) (tagPos framePos : Nat) : Nat :=
  if buf.getD (tagPos + 3) 0 = 4 then
    size7bitsToNormal (buf.getD (framePos + 4) 0) (buf.getD (framePos + 5) 0)
      (buf.getD (framePos + 6) 0) (buf.getD (framePos + 7) 0)
  else
    size8bitsToNormal (buf.getD (framePos + 4) 0) (buf.getD (framePos + 5) 0)
      (buf.getD (framePos + 6) 0) (buf.getD (framePos + 7) 0)

/-- Source isID3v2TagHeader: the three bytes at offset i are the letters I, D, 3. -/
def isID3v2TagHeader (buf : List Nat) (i : Nat) : Bool :=
  buf.getD i 0 == 73 && buf.getD (i + 1) 0 == 68 && buf.getD (i + 2) 0 == 51

/-- Loop bound of the scan in source getID3v2Tags.  The source computes
size - sizeof(ID3v2TagHeader) where size is a signed int and sizeof yields an
unsigned 64-bit size_t, so the subtraction is performed in unsigned 64-bit
arithmetic: for size below 10 the bound wraps around to a value near 2^64
instead of being negative. -/
def id3v2ScanBound (len : Nat) : Nat :=
  (len + (2 ^ 64 - 10)) % 2 ^ 64

/-- Source getID3v2Tags: scan offsets 0, 1, ... below the (wrapped) loop bound
and collect, in ascending order, every offset whose three bytes are I, D, 3.
The model returns the tag header offsets; the source returns pointers.
For buffers of length at least 10 the bound equals length - 10 and every read
of the scan is in bounds; for shorter buffers the wrapped bound makes the C++
loop read far past the buffer (see the C6 theorem). -/
def getID3v2Tags (buf : List Nat) : List Nat :=
  (List.range (id3v2ScanBound buf.length)).filter (fun i => isID3v2TagHeader buf i)

/-- Loop body of source getID3v2TagFrames.  Arguments: bound is the uint32
value start_pos + tag_size - 10 (computed exactly, in size_t width, by the
source since start_pos is at least 10), pos the current uint32 position, and
fuel the remaining recursion budget.  Each iteration stops when pos reaches
the bound, when fewer than 10 bytes remain for a frame header, or when the
first identifier byte is 0; otherwise the frame offset is emitted and pos
advances by 10 + frame_size, truncated to uint32 as in the source. -/
def getID3v2TagFramesAux (buf : List Nat) (tagPos bound : Nat) : Nat → Nat → List Nat
  | _pos, 0 => []
  | pos, fuel + 1 =>
    if pos < bound then
      if pos + 10 > buf.length then []
      else if buf.getD pos 0 = 0 then []
      else
        pos :: getID3v2TagFramesAux buf tagPos bound
          ((pos + 10 + getFrameSize buf tagPos pos) % 2 ^ 32) fuel
    else []

/-- Source getID3v2TagFrames: walk the frames of the tag whose header is at
tagPos, starting at tagPos + 10, with loop bound
(tagPos + 10) + tagSize - 10.  The fuel 2^32 covers every terminating
execution of the C++ loop (the position is a uint32 value and repeats after at
most 2^32 steps, after which the C++ loop never terminates). -/
def getID3v2TagFrames (buf : List Nat) (tagPos : Nat) : List Nat :=
  getID3v2TagFramesAux buf tagPos (tagPos + 10 + getTagSize buf tagPos - 10)
    (tagPos + 10) (2 ^ 32)

/-- Size of the text payload: the source decrements the uint32 frame_size once
(skipping the encoding byte), wrapping to 2^32 - 1 when the frame size is 0. -/
def textPayloadSize (buf : List Nat) (tagPos framePos : Nat) : Nat :=
  (getFrameSize buf tagPos framePos + (2 ^ 32 - 1)) % 2 ^ 32

/-- Loop of the UTF-16 branch of source getTextFrameData: indices i = 0, 2, 4,
... below fs; the byte at base + i is kept when it is nonzero and below 128.
The fuel fs bounds the iteration count, which is at most (fs + 1) / 2. -/
def utf16TextLoop (buf : List Nat) (base fs : Nat) : Nat → Nat → List Nat
  | _i, 0 => []
  | i, fuel + 1 =>
    if i < fs then
      if buf.getD (base + i) 0 ≠ 0 ∧ buf.getD (base + i) 0 < 128 then
        buf.getD (base + i) 0 :: utf16TextLoop buf base fs (i + 2) fuel
      else utf16TextLoop buf base fs (i + 2) fuel
    else []

/-- Source getTextFrameData: the byte at framePos + 10 selects the encoding;
the remaining frame_size - 1 bytes are the payload.  Encodings 0 and 3 copy
the payload bytes verbatim (std::string may hold NUL bytes); encodings 1 and 2
run the UTF-16 byte loop; any other selector yields the empty string.  The
result models the returned std::string as its list of bytes. -/
def getTextFrameData (buf : List Nat) (tagPos framePos : Nat) : List Nat :=
  let base := framePos + 10
  let enc := buf.getD base 0
  let fs := textPayloadSize buf tagPos framePos
  if enc = 0 then (List.range fs).map (fun k => buf.getD (base + 1 + k) 0)
  else if enc = 1 ∨ enc = 2 then utf16TextLoop buf (base + 1) fs 0 fs
  else if enc = 3 then (List.range fs).map (fun k => buf.getD (base + 1 + k) 0)
  else []

/-- Offsets of the buffer that source getTextFrameData dereferences: the
encoding byte at framePos + 10, then, depending on the encoding, the payload
bytes.  None of these offsets is compared against the buffer length by the
source; the list makes the dereferenced offsets explicit so that
out-of-bounds reads can be exhibited. -/
def getTextFrameDataReads (buf : List Nat) (tagPos framePos : Nat) : List Nat :=
  let base := framePos + 10
  let enc := buf.getD base 0
  let fs := textPayloadSize buf tagPos framePos
  base ::
    (if enc = 0 ∨ enc = 3 then (List.range fs).map (fun k => base + 1 + k)
     else if enc = 1 ∨ enc = 2 then
       ((List.range fs).filter (fun i => i % 2 == 0)).map (fun i => base + 1 + i)
     else [])

/-- Mime-type loop of source getPictureFrameData: starting at data_pos = dp,
collect bytes while data_pos is below frame_size and the byte is nonzero.
The final data_pos is the initial dp plus the length of the returned list. -/
def mimeScanLoop (buf : List Nat) (base fs : Nat) : Nat → Nat → List Nat
  | _dp, 0 => []
  | dp, fuel + 1 =>
    if dp < fs ∧ buf.getD (base + dp) 0 ≠ 0 then
      buf.getD (base + dp) 0 :: mimeScanLoop buf base fs (dp + 1) fuel
    else []

/-- Description-skip loop of source getPictureFrameData for encodings 0 and 3:
advance data_pos while it is below frame_size and the byte is nonzero. -/
def skipLatin1Loop (buf : List Nat) (base fs : Nat) : Nat → Nat → Nat
  | dp, 0 => dp
  | dp, fuel + 1 =>
    if dp < fs ∧ buf.getD (base + dp) 0 ≠ 0 then
      skipLatin1Loop buf base fs (dp + 1) fuel
    else dp

/-- Description-skip loop of source getPictureFrameData for encodings 1 and 2:
advance data_pos by 2 while it is below the bound and the two bytes at
data_pos are not both zero. -/
def skipUtf16Loop (buf : List Nat) (base bound : Nat) : Nat → Nat → Nat
  | dp, 0 => dp
  | dp, fuel + 1 =>
    if dp < bound ∧ ¬(buf.getD (base + dp) 0 = 0 ∧ buf.getD (base + dp + 1) 0 = 0) then
      skipUtf16Loop buf base bound (dp + 2) fuel
    else dp

/-- Byte list of the string literal image/jpeg used as the default mime type. -/
def jpegBytes : List Nat := [105, 109, 97, 103, 101, 47, 106, 112, 101, 103]

/-- Source getPictureFrameData.  Returns the mime-type bytes, the final
data_pos (the image offset relative to the frame body, so the returned image
pointer is framePos + 10 + data_pos), and the image size.  The mime scan
starts at data_pos = 1; after it, data_pos skips the terminator and the
picture-type byte (both skipped even if the scan stopped at the frame
boundary without a terminator, exactly as in the source).  The image size is
frame_size - data_pos computed in uint32 arithmetic, wrapping when data_pos
exceeds frame_size.  The bound of the UTF-16 description skip is
frame_size - 1 computed in uint32 arithmetic, wrapping when frame_size is 0. -/
def getPictureFrameData (buf : List Nat) (tagPos framePos : Nat) :
    List Nat × Nat × Nat :=
  let fs := getFrameSize buf tagPos framePos
  let base := framePos + 10
  let enc := buf.getD base 0
  let scanned := mimeScanLoop buf base fs 1 fs
  let mime := if scanned = [] then jpegBytes else scanned
  let dp1 := 1 + scanned.length + 1 + 1
  let dp2 :=
    if enc = 0 then skipLatin1Loop buf base fs dp1 fs + 1
    else if enc = 1 ∨ enc = 2 then
      let bound := (fs + (2 ^ 32 - 1)) % 2 ^ 32
      skipUtf16Loop buf base bound dp1 bound + 2
    else if enc = 3 then skipLatin1Loop buf base fs dp1 fs + 1
    else dp1
  let isize := (fs + 2 ^ 32 - dp2 % 2 ^ 32) % 2 ^ 32
  (mime, dp2, isize)

/-- Result record of source getMetadata.  Strings are modelled as byte lists
(std::string members are default-constructed empty); image_data is the offset
of the image bytes in the buffer (the source stores a raw pointer), image_size
its size.  In the source these two scalar members of MP3_Metadata are NOT
initialized by any constructor, so their initial values are indeterminate;
getMetadata below therefore takes the initial values as parameters. -/
structure MP3_Metadata where
  title : List Nat
  artist : List Nat
  album : List Nat
  year : List Nat
  track_num : List Nat
  genre : List Nat
  mime_type : List Nat
  description : List Nat
  image_data : Option Nat
  image_size : Nat
deriving Repr, DecidableEq

/-- Initial record of source getMetadata: all std::string members are
default-constructed empty; the uninitialized scalar members image_data and
image_size start with the indeterminate values g and gs. -/
def initMetadata (g : Option Nat) (gs : Nat) : MP3_Metadata :=
  { title := []
    artist := []
    album := []
    year := []
    track_num := []
    genre := []
    mime_type := []
    description := []
    image_data := g
    image_size := gs }

/-- Four identifier bytes of the frame header at framePos.  The source copies
the four bytes into a NUL-terminated array and uses strcmp; comparison of the
4-byte list with the byte list of a 4-letter identifier is equivalent, since
the identifiers contain no NUL byte. -/
def frameId (buf : List Nat) (framePos : Nat) : List Nat :=
  [buf.getD framePos 0, buf.getD (framePos + 1) 0, buf.getD (framePos + 2) 0,
    buf.getD (framePos + 3) 0]

/-- Identifier byte lists: TIT2. -/
def idTIT2 : List Nat := [84, 73, 84, 50]
/-- Identifier byte lists: TPE1. -/
def idTPE1 : List Nat := [84, 80, 69, 49]
/-- Identifier byte lists: TALB. -/
def idTALB : List Nat := [84, 65, 76, 66]
/-- Identifier byte lists: TYER. -/
def idTYER : List Nat := [84, 89, 69, 82]
/-- Identifier byte lists: TDRC. -/
def idTDRC : List Nat := [84, 68, 82, 67]
/-- Identifier byte lists: TRCK. -/
def idTRCK : List Nat := [84, 82, 67, 75]
/-- Identifier byte lists: TCON. -/
def idTCON : List Nat := [84, 67, 79, 78]
/-- Identifier byte lists: APIC. -/
def idAPIC : List Nat := [65, 80, 73, 67]

/-- Dispatch of source getMetadata on one frame: the identifier selects the
field written; unrecognized identifiers leave the record unchanged.  The APIC
branch stores the mime type and image size set by getPictureFrameData and the
returned image pointer framePos + 10 + data_pos. -/
def processFrame (buf : List Nat) (tagPos : Nat) (m : MP3_Metadata)
    (framePos : Nat) : MP3_Metadata :=
  let id := frameId buf framePos
  if id = idTIT2 then { m with title := getTextFrameData buf tagPos framePos }
  else if id = idTPE1 then { m with artist := getTextFrameData buf tagPos framePos }
  else if id = idTALB then { m with album := getTextFrameData buf tagPos framePos }
  else if id = idTYER ∨ id = idTDRC then
    { m with year := getTextFrameData buf tagPos framePos }
  else if id = idTRCK then { m with track_num := getTextFrameData buf tagPos framePos }
  else if id = idTCON then { m with genre := getTextFrameData buf tagPos framePos }
  else if id = idAPIC then
    let r := getPictureFrameData buf tagPos framePos
    { m with
      mime_type := (r.1)
      image_size := (r.2.2)
      image_data := some (framePos + 10 + r.2.1) }
  else m

/-- Source getMetadata: fold over all located tags in scan order and, within
each tag, over its frames in walk order, dispatching each frame into the
record.  The parameters g and gs are the indeterminate initial values of the
uninitialized members image_data and image_size. -/
def getMetadata (buf : List Nat) (g : Option Nat) (gs : Nat) : MP3_Metadata :=
  (getID3v2Tags buf).foldl
    (fun m tagPos => (getID3v2TagFrames buf tagPos).foldl (processFrame buf tagPos) m)
    (initMetadata g gs)

/-- All frames processed by getMetadata, in processing order, as pairs of the
tag offset and the frame offset. -/
def tagFramePairs (buf : List Nat) : List Nat → List (Nat × Nat)
  | [] => []
  | t :: ts => ((getID3v2TagFrames buf t).map (fun f => (t, f))) ++ tagFramePairs buf ts

/-- Scan-order list of the (tag, frame) pairs getMetadata processes. -/
def allFrames (buf : List Nat) : List (Nat × Nat) :=
  tagFramePairs buf (getID3v2Tags buf)

/-- Value of a record field under last-write-wins: the value v of the last
pair of allFrames satisfying p, or the initial value d when no pair matches. -/
def lastWrite {V : Type} (buf : List Nat) (p : Nat × Nat → Bool)
    (v : Nat × Nat → V) (d : V) : V :=
  (((allFrames buf).filter p).getLast?.map v).getD d

/-- Boolean test that the frame of a (tag, frame) pair has the given identifier. -/
def isFrameWithId (buf : List Nat) (id : List Nat) (tf : Nat × Nat) : Bool :=
  frameId buf tf.2 == id

/-- Concrete 21-byte buffer: an ID3v2.3 tag at offset 0 with declared body
size 30, containing one TIT2 frame at offset 10 whose declared body size 100
extends far past the end of the buffer; the byte after the frame header is
the Latin-1 encoding selector 0. -/
def bufOverrun : List Nat :=
  [73, 68, 51, 3, 0, 0, 0, 0, 0, 30,
   84, 73, 84, 50, 0, 0, 0, 100, 0, 0, 0]

/-- Concrete 20-byte buffer: an ID3v2.3 tag at offset 0 with declared body
size 30 and one TIT2 frame at offset 10 whose declared body size is 100. -/
def bufBodyPastTag : List Nat :=
  [73, 68, 51, 3, 0, 0, 0, 0, 0, 30,
   84, 73, 84, 50, 0, 0, 0, 100, 0, 0]

/-- Concrete 23-byte buffer: an ID3v2.3 tag with one TIT2 frame of size 3
whose payload is the encoding selector 2 (UTF-16 big-endian) followed by the
two bytes 0 and 65, i.e. the single 16-bit code unit 65 (the letter A). -/
def bufUtf16BE : List Nat :=
  [73, 68, 51, 3, 0, 0, 0, 0, 0, 40,
   84, 73, 84, 50, 0, 0, 0, 3, 0, 0, 2, 0, 65]

/-- Concrete 23-byte buffer: an ID3v2 tag whose major version byte is 5 and a
frame at offset 10 whose size bytes are 0, 0, 1, 0. -/
def bufMajor5 : List Nat :=
  [73, 68, 51, 5, 0, 0, 0, 0, 0, 50,
   84, 73, 84, 50, 0, 0, 1, 0, 0, 0, 0, 0, 0]

/-- Concrete buffer like bufMajor5 but with major version byte 4. -/
def bufMajor4 : List Nat :=
  [73, 68, 51, 4, 0, 0, 0, 0, 0, 50,
   84, 73, 84, 50, 0, 0, 1, 0, 0, 0, 0, 0, 0]

/-- Concrete 23-byte buffer: an APIC frame of declared size 3 whose body is
the encoding selector 0 followed by the bytes 97, 98 with no null terminator
inside the declared frame size. -/
def bufMimeNoNul : List Nat :=
  [73, 68, 51, 3, 0, 0, 0, 0, 0, 40,
   65, 80, 73, 67, 0, 0, 0, 3, 0, 0, 0, 97, 98]

/-- Concrete 5-byte buffer starting with the letters I, D, 3. -/
def bufShort5 : List Nat := [73, 68, 51, 0, 0]

/-- Concrete 128-byte buffer beginning with the letters T, A, G. -/
def bufTag128 : List Nat := [84, 65, 71] ++ List.replicate 125 0

/-- Concrete 12-byte all-zero buffer: contains no ID3v2 tag. -/
def bufZero12 : List Nat := List.replicate 12 0

/-- C1, code bug.  The spec requires every computed offset to be
bounds-checked against the buffer length before dereference.  On bufOverrun
the tag at offset 0 is located by the scan, the walker yields the TIT2 frame
at offset 10 (its 10-byte header fits in the buffer), but getTextFrameData
then dereferences the 100-byte declared body, reading offsets from 21 up to
119 in a 21-byte buffer: the decoder trusts the declared frame size and
never compares the computed offsets with the buffer length. -/
theorem decodeText_reads_past_buffer :
    0 ∈ getID3v2Tags bufOverrun ∧
    10 ∈ getID3v2TagFrames bufOverrun 0 ∧
    ∃ o ∈ getTextFrameDataReads bufOverrun 0 10, bufOverrun.length ≤ o := by
  refine ⟨by decide, by decide, 21, by decide, by decide⟩

/-- C2, counterexample.  On bufBodyPastTag the walker yields the frame at
offset 10 although its header offset plus 10 plus its decoded body size is
120, which exceeds tagStart + 10 + S = 40: the walker checks only that the
frame header, not the body, lies inside the declared tag body. -/
theorem frame_body_exceeds_tag_boundary :
    0 ∈ getID3v2Tags bufBodyPastTag ∧
    10 ∈ getID3v2TagFrames bufBodyPastTag 0 ∧
    getTagSize bufBodyPastTag 0 = 30 ∧
    getFrameSize bufBodyPastTag 0 10 = 100 ∧
    ¬(10 + 10 + getFrameSize bufBodyPastTag 0 10 ≤ 0 + 10 + getTagSize bufBodyPastTag 0) := by
  refine ⟨by decide, by decide, by decide, by decide, by decide⟩

/-- C5, counterexample.  The claim says the synchsafe codec is used for every
major version greater than or equal to 4, but the source selects it only on
exact equality with 4: with major version 5 and size bytes 0, 0, 1, 0 the
source decodes 256 (plain codec) while the synchsafe codec yields 128. -/
theorem getFrameSize_major_five_uses_plain :
    bufMajor5.getD 3 0 = 5 ∧
    getFrameSize bufMajor5 0 10 = 256 ∧
    size7bitsToNormal 0 0 1 0 = 128 ∧
    getFrameSize bufMajor5 0 10 ≠ size7bitsToNormal 0 0 1 0 := by
  refine ⟨by decide, by decide, by decide, by decide⟩

/-- C5, amended.  The frame body size is decoded with the synchsafe codec
exactly when the tag's major version byte equals 4, and with the plain 8-bit
big-endian codec for every other major version (both below 4 and above 4). -/
theorem getFrameSize_codec_selection (buf : List Nat) (tagPos framePos : Nat) :
    (buf.getD (tagPos + 3) 0 = 4 →
      getFrameSize buf tagPos framePos =
        size7bitsToNormal (buf.getD (framePos + 4) 0) (buf.getD (framePos + 5) 0)
          (buf.getD (framePos + 6) 0) (buf.getD (framePos + 7) 0)) ∧
    (buf.getD (tagPos + 3) 0 ≠ 4 →
      getFrameSize buf tagPos framePos =
        size8bitsToNormal (buf.getD (framePos + 4) 0) (buf.getD (framePos + 5) 0)
          (buf.getD (framePos + 6) 0) (buf.getD (framePos + 7) 0)) := by
  unfold getFrameSize
  refine ⟨fun h => ?_, fun h => ?_⟩
  · rw [if_pos h]
  · rw [if_neg h]

/-- Witness for the C5 theorem at the concrete buffers bufMajor4 and
bufMajor5: major version 4 selects the synchsafe codec, major version 5 the
plain codec. -/
theorem getFrameSize_codec_selection_witness :
    getFrameSize bufMajor4 0 10 = size7bitsToNormal 0 0 1 0 ∧
    getFrameSize bufMajor5 0 10 = size8bitsToNormal 0 0 1 0 := by
  refine ⟨(getFrameSize_codec_selection bufMajor4 0 10).1 (by decide),
    (getFrameSize_codec_selection bufMajor5 0 10).2 (by decide)⟩

/-- C6, code bug.  The claim says the scan covers offsets below
length - 10 and in particular returns the empty sequence for every buffer of
length at most 10.  The source computes the loop bound size - sizeof(header)
in unsigned 64-bit arithmetic, so for the 5-byte buffer bufShort5 the bound
wraps to 2^64 - 5: the loop runs far past the buffer (dereferencing offsets
at and beyond the buffer length, undefined behavior), and the scan even
reports the match at offset 0, contradicting the claimed empty result. -/
theorem id3v2_scan_bound_wraps_for_short_buffer :
    id3v2ScanBound bufShort5.length = 2 ^ 64 - 5 ∧
    0 ∈ getID3v2Tags bufShort5 ∧
    ∃ i, i < id3v2ScanBound bufShort5.length ∧ bufShort5.length ≤ i + 2 := by
  refine ⟨by decide, List.mem_filter.mpr ⟨List.mem_range.mpr (by decide), by decide⟩,
    3, by decide, by decide⟩

/-- C7, confirmed.  getID3v1Tag returns the offset length - 128 exactly when
the buffer holds at least 128 bytes and the three bytes at that offset are
the letters T, A, G; it returns none for every shorter buffer and whenever
those three bytes differ, and any returned offset is length - 128. -/
theorem getID3v1Tag_spec (buf : List Nat) :
    (getID3v1Tag buf = some (buf.length - 128) ↔
      128 ≤ buf.length ∧ buf.getD (buf.length - 128) 0 = 84 ∧
        buf.getD (buf.length - 128 + 1) 0 = 65 ∧
        buf.getD (buf.length - 128 + 2) 0 = 71) ∧
    (buf.length < 128 → getID3v1Tag buf = none) ∧
    (¬(buf.getD (buf.length - 128) 0 = 84 ∧ buf.getD (buf.length - 128 + 1) 0 = 65 ∧
        buf.getD (buf.length - 128 + 2) 0 = 71) → getID3v1Tag buf = none) ∧
    (∀ p, getID3v1Tag buf = some p → p = buf.length - 128) := by
  unfold getID3v1Tag
  by_cases h : buf.length < 128
  · rw [if_pos h]
    exact ⟨⟨fun hfalse => Option.noConfusion hfalse, fun hc => absurd hc.1 (by omega)⟩,
      fun _ => rfl, fun _ => rfl, fun p hp => Option.noConfusion hp⟩
  · rw [if_neg h]
    by_cases htag : buf.getD (buf.length - 128) 0 = 84 ∧
        buf.getD (buf.length - 128 + 1) 0 = 65 ∧ buf.getD (buf.length - 128 + 2) 0 = 71
    · rw [if_pos htag]
      exact ⟨⟨fun _ => ⟨by omega, htag⟩, fun _ => rfl⟩, fun hlt => absurd hlt h,
        fun hcon => absurd htag hcon, fun p hp => (Option.some.inj hp).symm⟩
    · rw [if_neg htag]
      exact ⟨⟨fun hfalse => Option.noConfusion hfalse, fun hc => absurd hc.2 htag⟩,
        fun _ => rfl, fun _ => rfl, fun p hp => Option.noConfusion hp⟩

set_option maxRecDepth 8192 in
/-- Witness for the C7 theorem: the 128-byte buffer starting with T, A, G
yields the tag at offset 0, and a 1-byte buffer yields none. -/
theorem getID3v1Tag_spec_witness :
    getID3v1Tag bufTag128 = some (bufTag128.length - 128) ∧
    getID3v1Tag [0] = none := by
  refine ⟨(getID3v1Tag_spec bufTag128).1.mpr ⟨by decide, by decide, by decide, by decide⟩,
    (getID3v1Tag_spec [0]).2.1 (by decide)⟩

/-- C8, counterexample.  On bufMimeNoNul the mime scan exhausts the declared
frame size without finding a null terminator; the claim says the mime type is
then treated as empty and defaulted to image/jpeg, but the source keeps the
two scanned bytes 97, 98 as the mime type. -/
theorem mime_unterminated_not_defaulted :
    (getPictureFrameData bufMimeNoNul 0 10).1 = [97, 98] ∧
    (getPictureFrameData bufMimeNoNul 0 10).1 ≠ jpegBytes := by
  refine ⟨by decide, by decide⟩

/-- C9, code bug.  The claim says that when no APIC frame is processed the
picture is absent with zero image size.  In the source the members image_data
and image_size of MP3_Metadata are never initialized, so on a buffer with no
tags getMetadata returns whatever indeterminate values those members held:
with initial garbage 7 the returned record reports image size 7 and a
non-null image pointer, and only with initial garbage none and 0 does it
report the claimed absent picture. -/
theorem getMetadata_uninitialized_picture_fields :
    getID3v2Tags bufZero12 = [] ∧
    (getMetadata bufZero12 (some 7) 7).image_data = some 7 ∧
    (getMetadata bufZero12 (some 7) 7).image_size = 7 ∧
    (getMetadata bufZero12 none 0).image_size = 0 := by
  refine ⟨by decide, by decide, by decide, by decide⟩

/-- Every frame offset emitted by the walker loop satisfies the loop
condition, i.e. is strictly below the loop bound. -/
theorem mem_framesAux_lt_bound (buf : List Nat) (tagPos bound : Nat) :
    ∀ fuel pos p, p ∈ getID3v2TagFramesAux buf tagPos bound pos fuel → p < bound := by
  intro fuel
  induction fuel with
  | zero =>
    intro pos p hp
    exact absurd hp (List.not_mem_nil p)
  | succ n ih =>
    intro pos p hp
    simp only [getID3v2TagFramesAux] at hp
    by_cases hb : pos < bound
    · rw [if_pos hb] at hp
      by_cases hlen : pos + 10 > buf.length
      · rw [if_pos hlen] at hp
        exact absurd hp (List.not_mem_nil p)
      · rw [if_neg hlen] at hp
        by_cases hz : buf.getD pos 0 = 0
        · rw [if_pos hz] at hp
          exact absurd hp (List.not_mem_nil p)
        · rw [if_neg hz] at hp
          rcases List.mem_cons.mp hp with h1 | h2
          · exact h1 ▸ hb
          · exact ih _ p h2
    · rw [if_neg hb] at hp
      exact absurd hp (List.not_mem_nil p)

/-- C2, amended.  The walker guarantees only that the 10-byte header of every
yielded frame lies inside the declared tag body: the frame offset plus 10
never exceeds tagStart + 10 + S.  The frame's declared body size is not
checked, so header plus body may exceed that boundary (see the
counterexample). -/
theorem frame_header_within_tag_boundary (buf : List Nat) (tagPos p : Nat)
    (h : p ∈ getID3v2TagFrames buf tagPos) :
    p + 10 ≤ tagPos + 10 + getTagSize buf tagPos := by
  unfold getID3v2TagFrames at h
  have hlt := mem_framesAux_lt_bound buf tagPos
    (tagPos + 10 + getTagSize buf tagPos - 10) (2 ^ 32) (tagPos + 10) p h
  omega

/-- Witness for the C2 theorem at the concrete buffer bufBodyPastTag: the
frame at offset 10 has its header inside the declared tag body. -/
theorem frame_header_within_tag_boundary_witness :
    10 + 10 ≤ 0 + 10 + getTagSize bufBodyPastTag 0 :=
  frame_header_within_tag_boundary bufBodyPastTag 0 10 (by decide)

/-- Disjoint bit ranges turn bitwise or into addition: when b fits in k bits,
the or of a shifted left by k with b is their sum. -/
theorem lor_shiftLeft_add (a b k : Nat) (hb : b < 2 ^ k) :
    (a <<< k) ||| b = a * 2 ^ k + b := by
  apply Nat.eq_of_testBit_eq
  intro j
  rw [Nat.testBit_lor, Nat.testBit_shiftLeft,
    show a * 2 ^ k + b = 2 ^ k * a + b from by ring,
    Nat.testBit_mul_pow_two_add a hb j]
  by_cases hj : j < k
  · have h1 : ¬j ≥ k := by omega
    simp [hj, h1]
  · have h1 : j ≥ k := by omega
    have h2 : Nat.testBit b j = false :=
      Nat.testBit_lt_two_pow (lt_of_lt_of_le hb (Nat.pow_le_pow_right (by norm_num) h1))
    simp [hj, h1, h2]

/-- C10, amended.  The synchsafe codec computes exactly the unmasked
combination of the shifted bytes; when every byte is below 128 (valid
synchsafe input) this equals the weighted sum in which each byte contributes
its low 7 bits.  The plain codec yields the standard big-endian value for all
byte inputs, and the three example values of the claim hold.  High bits of
oversized synchsafe bytes are NOT masked (see the counterexample). -/
theorem size_codecs_values :
    (∀ b0 b1 b2 b3 : Nat, b0 < 128 → b1 < 128 → b2 < 128 → b3 < 128 →
      size7bitsToNormal b0 b1 b2 b3 = b0 * 2 ^ 21 + b1 * 2 ^ 14 + b2 * 2 ^ 7 + b3) ∧
    (∀ b0 b1 b2 b3 : Nat, b0 < 256 → b1 < 256 → b2 < 256 → b3 < 256 →
      size8bitsToNormal b0 b1 b2 b3 = b0 * 2 ^ 24 + b1 * 2 ^ 16 + b2 * 2 ^ 8 + b3) ∧
    size7bitsToNormal 0 0 0 127 = 127 ∧ size7bitsToNormal 0 0 1 0 = 128 ∧
    size8bitsToNormal 0 0 0 255 = 255 := by
  refine ⟨?_, ?_, by decide, by decide, by decide⟩
  · intro b0 b1 b2 b3 h0 h1 h2 h3
    unfold size7bitsToNormal
    rw [Nat.lor_assoc, Nat.lor_assoc,
      lor_shiftLeft_add b2 b3 7 (by omega),
      lor_shiftLeft_add b1 _ 14 (by omega),
      lor_shiftLeft_add b0 _ 21 (by omega)]
    ring
  · intro b0 b1 b2 b3 h0 h1 h2 h3
    unfold size8bitsToNormal
    rw [Nat.lor_assoc, Nat.lor_assoc,
      lor_shiftLeft_add b2 b3 8 (by omega),
      lor_shiftLeft_add b1 _ 16 (by omega),
      lor_shiftLeft_add b0 _ 24 (by omega)]
    ring

/-- Witness for the C10 theorem at concrete byte values. -/
theorem size_codecs_values_witness :
    size7bitsToNormal 1 2 3 4 = 1 * 2 ^ 21 + 2 * 2 ^ 14 + 3 * 2 ^ 7 + 4 ∧
    size8bitsToNormal 1 2 3 4 = 1 * 2 ^ 24 + 2 * 2 ^ 16 + 3 * 2 ^ 8 + 4 :=
  ⟨size_codecs_values.1 1 2 3 4 (by decide) (by decide) (by decide) (by decide),
   size_codecs_values.2.1 1 2 3 4 (by decide) (by decide) (by decide) (by decide)⟩

/-- The UTF-16 branch loop of getTextFrameData visits exactly the even
indices below fs and keeps the byte at each visited index when it is nonzero
and below 128. -/
theorem utf16TextLoop_eq_filter (buf : List Nat) (base fs : Nat) :
    ∀ fuel i, fs ≤ i + 2 * fuel →
      utf16TextLoop buf base fs i fuel =
        ((List.range' i ((fs - i + 1) / 2) 2).map (fun j => buf.getD (base + j) 0)).filter
          (fun b => decide (b ≠ 0 ∧ b < 128)) := by
  intro fuel
  induction fuel with
  | zero =>
    intro i hle
    have h0 : fs - i = 0 := by omega
    simp [utf16TextLoop, h0]
  | succ n ih =>
    intro i hle
    simp only [utf16TextLoop]
    by_cases hif : i < fs
    · rw [if_pos hif]
      have hcount : (fs - i + 1) / 2 = (fs - (i + 2) + 1) / 2 + 1 := by omega
      rw [hcount, List.range'_succ, List.map_cons, List.filter_cons]
      by_cases hkeep : buf.getD (base + i) 0 ≠ 0 ∧ buf.getD (base + i) 0 < 128
      · rw [if_pos hkeep, if_pos (by simpa using hkeep)]
        rw [ih (i + 2) (by omega)]
      · rw [if_neg hkeep, if_neg (by simpa using hkeep)]
        rw [ih (i + 2) (by omega)]
    · rw [if_neg hif]
      have h0 : fs - i = 0 := by omega
      simp [h0]

/-- C4, amended.  For encoding selectors 1 and 2 the decoder does not decode
16-bit code units: it examines only the byte at each even offset of the
payload and keeps it when it is nonzero and below 128; bytes at odd offsets
(the other half of every code unit) are ignored entirely, so a code unit in
the range 1 to 127 is dropped whenever its value byte sits at an odd offset
(as in big-endian payloads), and a retained byte need not be the value of an
ASCII code unit. -/
theorem getTextFrameData_utf16_even_byte_filter (buf : List Nat) (tagPos framePos : Nat)
    (henc : buf.getD (framePos + 10) 0 = 1 ∨ buf.getD (framePos + 10) 0 = 2) :
    getTextFrameData buf tagPos framePos =
      ((List.range' 0 ((textPayloadSize buf tagPos framePos + 1) / 2) 2).map
        (fun j => buf.getD (framePos + 10 + 1 + j) 0)).filter
        (fun b => decide (b ≠ 0 ∧ b < 128)) := by
  have hne : ¬buf.getD (framePos + 10) 0 = 0 := by rcases henc with h | h <;> omega
  simp only [getTextFrameData]
  rw [if_neg hne, if_pos henc,
    utf16TextLoop_eq_filter buf (framePos + 10 + 1) (textPayloadSize buf tagPos framePos)
      (textPayloadSize buf tagPos framePos) 0 (by omega)]
  rw [Nat.sub_zero]

/-- Witness for the C4 theorem at the concrete buffer bufUtf16BE. -/
theorem getTextFrameData_utf16_even_byte_filter_witness :
    getTextFrameData bufUtf16BE 0 10 =
      ((List.range' 0 ((textPayloadSize bufUtf16BE 0 10 + 1) / 2) 2).map
        (fun j => bufUtf16BE.getD (10 + 10 + 1 + j) 0)).filter
        (fun b => decide (b ≠ 0 ∧ b < 128)) :=
  getTextFrameData_utf16_even_byte_filter bufUtf16BE 0 10 (Or.inr (by decide))

/-- C4, counterexample.  On bufUtf16BE the payload carries the single
big-endian code unit 65, which lies in the claimed retained range 1 to 127,
yet the decoder returns the empty string rather than that character: the
byte at the even offset is the zero high byte, so nothing is kept. -/
theorem utf16_ascii_code_unit_dropped :
    bufUtf16BE.getD 20 0 = 2 ∧
    (bufUtf16BE.getD 21 0) * 256 + bufUtf16BE.getD 22 0 = 65 ∧
    1 ≤ 65 ∧ 65 ≤ 127 ∧
    getTextFrameData bufUtf16BE 0 10 = [] ∧
    getTextFrameData bufUtf16BE 0 10 ≠ [65] := by
  refine ⟨by decide, by decide, by decide, by decide, by decide, by decide⟩

/-- The mime-type loop of getPictureFrameData collects, starting at offset
dp of the frame body, the longest prefix of nonzero bytes of the byte
sequence running up to the declared frame size. -/
theorem mimeScanLoop_eq_takeWhile (buf : List Nat) (base fs : Nat) :
    ∀ fuel dp, fs ≤ dp + fuel →
      mimeScanLoop buf base fs dp fuel =
        ((List.range' dp (fs - dp)).map (fun j => buf.getD (base + j) 0)).takeWhile
          (fun b => !(b == 0)) := by
  intro fuel
  induction fuel with
  | zero =>
    intro dp hle
    have h0 : fs - dp = 0 := by omega
    simp [mimeScanLoop, h0]
  | succ n ih =>
    intro dp hle
    simp only [mimeScanLoop]
    by_cases hdp : dp < fs
    · have hcount : fs - dp = (fs - (dp + 1)) + 1 := by omega
      rw [hcount, List.range'_succ, List.map_cons, List.takeWhile_cons]
      by_cases hb : buf.getD (base + dp) 0 = 0
      · rw [if_neg (fun hc => hc.2 hb), if_neg (by simpa using hb)]
      · rw [if_pos ⟨hdp, hb⟩, if_pos (by simpa using hb)]
        rw [ih (dp + 1) (by omega)]
    · rw [if_neg (fun hc => hdp hc.1)]
      have h0 : fs - dp = 0 := by omega
      simp [h0]

/-- C8, amended.  When the mime scan exhausts the declared frame size before
finding a null terminator it stops at the frame boundary, and the bytes
scanned so far (which need not be empty) become the mime type; the default
image/jpeg is used exactly when the scan collected no bytes, i.e. when the
first payload byte is already zero or the declared frame size leaves no byte
to scan. -/
theorem mime_default_iff_no_bytes_scanned (buf : List Nat) (tagPos framePos : Nat) :
    (getPictureFrameData buf tagPos framePos).1 =
      (if ((List.range' 1 (getFrameSize buf tagPos framePos - 1)).map
            (fun j => buf.getD (framePos + 10 + j) 0)).takeWhile (fun b => !(b == 0)) = []
       then jpegBytes
       else ((List.range' 1 (getFrameSize buf tagPos framePos - 1)).map
            (fun j => buf.getD (framePos + 10 + j) 0)).takeWhile (fun b => !(b == 0))) := by
  simp only [getPictureFrameData]
  rw [mimeScanLoop_eq_takeWhile buf (framePos + 10) (getFrameSize buf tagPos framePos)
    (getFrameSize buf tagPos framePos) 1 (by omega)]

/-- Last-write-wins for a left fold: when every step either writes the
projected field with a value depending only on the step's element (matching
elements) or leaves the field unchanged (non-matching elements), the field of
the fold result is the value of the last matching element, or the initial
field value when no element matches. -/
theorem foldl_field_lastWrite {α M V : Type} (π : M → V) (upd : M → α → M)
    (p : α → Bool) (v : α → V)
    (h1 : ∀ m a, p a = true → π (upd m a) = v a)
    (h2 : ∀ m a, p a = false → π (upd m a) = π m) :
    ∀ (l : List α) (init : M),
      π (l.foldl upd init) = (((l.filter p).getLast?).map v).getD (π init) := by
  intro l
  induction l with
  | nil => intro init; simp
  | cons a t ih =>
    intro init
    rw [List.foldl_cons, ih (upd init a), List.filter_cons]
    by_cases hpa : p a = true
    · rw [if_pos hpa, h1 init a hpa]
      cases hft : t.filter p with
      | nil => simp
      | cons b u =>
        rw [List.getLast?_cons_cons]
        have hy : (b :: u).getLast? = some ((b :: u).getLast (by simp)) :=
          List.getLast?_eq_getLast _ _
        rw [hy]
        rfl
    · have hfalse : p a = false := by
        revert hpa; cases p a <;> simp
      rw [if_neg hpa, h2 init a hfalse]

/-- The nested fold of getMetadata over tags and their frames equals the
fold over the flattened scan-order list of (tag, frame) pairs. -/
theorem foldl_tagFramePairs (buf : List Nat) :
    ∀ (ts : List Nat) (init : MP3_Metadata),
      ts.foldl (fun m tagPos =>
          (getID3v2TagFrames buf tagPos).foldl (processFrame buf tagPos) m) init =
        (tagFramePairs buf ts).foldl (fun m tf => processFrame buf tf.1 m tf.2) init := by
  intro ts
  induction ts with
  | nil => intro init; rfl
  | cons t ts ih =>
    intro init
    rw [List.foldl_cons, ih, tagFramePairs, List.foldl_append, List.foldl_map]

/-- getMetadata is the fold of the frame dispatch over the scan-order list of
(tag, frame) pairs. -/
theorem getMetadata_eq_foldl_pairs (buf : List Nat) (g : Option Nat) (gs : Nat) :
    getMetadata buf g gs =
      (allFrames buf).foldl (fun m tf => processFrame buf tf.1 m tf.2)
        (initMetadata g gs) := by
  unfold getMetadata allFrames
  exact foldl_tagFramePairs buf (getID3v2Tags buf) (initMetadata g gs)

/-- C3, confirmed.  The tag scan reports offsets in strictly ascending order;
getMetadata processes those tags in that order and, inside each tag, the
frames in walk order, and each of the seven recognized metadata fields ends
up holding the value decoded from the LAST processed frame mapping to that
field across the whole scan (title, artist, album, year via TYER or TDRC,
track, genre, and the three components written by an APIC frame), falling
back to the initial field value when no frame matches. -/
theorem getMetadata_last_write_wins (buf : List Nat) (g : Option Nat) (gs : Nat) :
    List.Pairwise (· < ·) (getID3v2Tags buf) ∧
    (getMetadata buf g gs).title =
      lastWrite buf (isFrameWithId buf idTIT2)
        (fun tf => getTextFrameData buf tf.1 tf.2) [] ∧
    (getMetadata buf g gs).artist =
      lastWrite buf (isFrameWithId buf idTPE1)
        (fun tf => getTextFrameData buf tf.1 tf.2) [] ∧
    (getMetadata buf g gs).album =
      lastWrite buf (isFrameWithId buf idTALB)
        (fun tf => getTextFrameData buf tf.1 tf.2) [] ∧
    (getMetadata buf g gs).year =
      lastWrite buf (fun tf => isFrameWithId buf idTYER tf || isFrameWithId buf idTDRC tf)
        (fun tf => getTextFrameData buf tf.1 tf.2) [] ∧
    (getMetadata buf g gs).track_num =
      lastWrite buf (isFrameWithId buf idTRCK)
        (fun tf => getTextFrameData buf tf.1 tf.2) [] ∧
    (getMetadata buf g gs).genre =
      lastWrite buf (isFrameWithId buf idTCON)
        (fun tf => getTextFrameData buf tf.1 tf.2) [] ∧
    (getMetadata buf g gs).mime_type =
      lastWrite buf (isFrameWithId buf idAPIC)
        (fun tf => (getPictureFrameData buf tf.1 tf.2).1) [] ∧
    (getMetadata buf g gs).image_size =
      lastWrite buf (isFrameWithId buf idAPIC)
        (fun tf => (getPictureFrameData buf tf.1 tf.2).2.2) gs ∧
    (getMetadata buf g gs).image_data =
      lastWrite buf (isFrameWithId buf idAPIC)
        (fun tf => some (tf.2 + 10 + (getPictureFrameData buf tf.1 tf.2).2.1)) g := by
  refine ⟨(List.pairwise_lt_range _).sublist (List.filter_sublist _), ?_, ?_, ?_, ?_, ?_, ?_, ?_, ?_, ?_⟩
  all_goals rw [getMetadata_eq_foldl_pairs]
  · exact foldl_field_lastWrite MP3_Metadata.title _ _ _
      (fun m tf h => by
        have hid : frameId buf tf.2 = idTIT2 := by simpa [isFrameWithId] using h
        simp [processFrame, hid, idTIT2, idTPE1, idTALB, idTYER, idTDRC, idTRCK, idTCON, idAPIC])
      (fun m tf h => by
        have hid : ¬frameId buf tf.2 = idTIT2 := by simpa [isFrameWithId] using h
        simp only [processFrame]
        split_ifs <;> rfl)
      (allFrames buf) (initMetadata g gs)
  · exact foldl_field_lastWrite MP3_Metadata.artist _ _ _
      (fun m tf h => by
        have hid : frameId buf tf.2 = idTPE1 := by simpa [isFrameWithId] using h
        simp [processFrame, hid, idTIT2, idTPE1, idTALB, idTYER, idTDRC, idTRCK, idTCON, idAPIC])
      (fun m tf h => by
        have hid : ¬frameId buf tf.2 = idTPE1 := by simpa [isFrameWithId] using h
        simp only [processFrame]
        split_ifs <;> rfl)
      (allFrames buf) (initMetadata g gs)
  · exact foldl_field_lastWrite MP3_Metadata.album _ _ _
      (fun m tf h => by
        have hid : frameId buf tf.2 = idTALB := by simpa [isFrameWithId] using h
        simp [processFrame, hid, idTIT2, idTPE1, idTALB, idTYER, idTDRC, idTRCK, idTCON, idAPIC])
      (fun m tf h => by
        have hid : ¬frameId buf tf.2 = idTALB := by simpa [isFrameWithId] using h
        simp only [processFrame]
        split_ifs <;> rfl)
      (allFrames buf) (initMetadata g gs)
  · exact foldl_field_lastWrite MP3_Metadata.year _ _ _
      (fun m tf h => by
        have hid : frameId buf tf.2 = idTYER ∨ frameId buf tf.2 = idTDRC := by
          have h2 : isFrameWithId buf idTYER tf = true ∨ isFrameWithId buf idTDRC tf = true := by
            rcases Bool.or_eq_true_iff.mp h with ha | hb
            · exact Or.inl ha
            · exact Or.inr hb
          rcases h2 with ha | hb
          · exact Or.inl (by simpa [isFrameWithId] using ha)
          · exact Or.inr (by simpa [isFrameWithId] using hb)
        rcases hid with hid | hid <;> simp [processFrame, hid, idTIT2, idTPE1, idTALB, idTYER, idTDRC, idTRCK, idTCON, idAPIC])
      (fun m tf h => by
        have hfa : ¬frameId buf tf.2 = idTYER := by
          have := (Bool.or_eq_false_iff.mp h).1
          simpa [isFrameWithId] using this
        have hfb : ¬frameId buf tf.2 = idTDRC := by
          have := (Bool.or_eq_false_iff.mp h).2
          simpa [isFrameWithId] using this
        simp only [processFrame]
        split_ifs with c1 c2 c3 c4 c5 c6 c7 <;>
          first | rfl | exact absurd c4 (fun hc => hc.elim hfa hfb))
      (allFrames buf) (initMetadata g gs)
  · exact foldl_field_lastWrite MP3_Metadata.track_num _ _ _
      (fun m tf h => by
        have hid : frameId buf tf.2 = idTRCK := by simpa [isFrameWithId] using h
        simp [processFrame, hid, idTIT2, idTPE1, idTALB, idTYER, idTDRC, idTRCK, idTCON, idAPIC])
      (fun m tf h => by
        have hid : ¬frameId buf tf.2 = idTRCK := by simpa [isFrameWithId] using h
        simp only [processFrame]
        split_ifs <;> rfl)
      (allFrames buf) (initMetadata g gs)
  · exact foldl_field_lastWrite MP3_Metadata.genre _ _ _
      (fun m tf h => by
        have hid : frameId buf tf.2 = idTCON := by simpa [isFrameWithId] using h
        simp [processFrame, hid, idTIT2, idTPE1, idTALB, idTYER, idTDRC, idTRCK, idTCON, idAPIC])
      (fun m tf h => by
        have hid : ¬frameId buf tf.2 = idTCON := by simpa [isFrameWithId] using h
        simp only [processFrame]
        split_ifs <;> rfl)
      (allFrames buf) (initMetadata g gs)
  · exact foldl_field_lastWrite MP3_Metadata.mime_type _ _ _
      (fun m tf h => by
        have hid : frameId buf tf.2 = idAPIC := by simpa [isFrameWithId] using h
        simp [processFrame, hid, idTIT2, idTPE1, idTALB, idTYER, idTDRC, idTRCK, idTCON, idAPIC])
      (fun m tf h => by
        have hid : ¬frameId buf tf.2 = idAPIC := by simpa [isFrameWithId] using h
        simp only [processFrame]
        split_ifs <;> rfl)
      (allFrames buf) (initMetadata g gs)
  · exact foldl_field_lastWrite MP3_Metadata.image_size _ _ _
      (fun m tf h => by
        have hid : frameId buf tf.2 = idAPIC := by simpa [isFrameWithId] using h
        simp [processFrame, hid, idTIT2, idTPE1, idTALB, idTYER, idTDRC, idTRCK, idTCON, idAPIC])
      (fun m tf h => by
        have hid : ¬frameId buf tf.2 = idAPIC := by simpa [isFrameWithId] using h
        simp only [processFrame]
        split_ifs <;> rfl)
      (allFrames buf) (initMetadata g gs)
  · exact foldl_field_lastWrite MP3_Metadata.image_data _ _ _
      (fun m tf h => by
        have hid : frameId buf tf.2 = idAPIC := by simpa [isFrameWithId] using h
        simp [processFrame, hid, idTIT2, idTPE1, idTALB, idTYER, idTDRC, idTRCK, idTCON, idAPIC])
      (fun m tf h => by
        have hid : ¬frameId buf tf.2 = idAPIC := by simpa [isFrameWithId] using h
        simp only [processFrame]
        split_ifs <;> rfl)
      (allFrames buf) (initMetadata g gs)

/-- C10, counterexample.  The claim says each byte contributes only its low 7
bits to the synchsafe value, but the source masks nothing: with the last byte
255 the decoded value is 255, not the 127 that a 7-bit contribution would
give. -/
theorem synchsafe_high_bit_not_masked :
    size7bitsToNormal 0 0 0 255 = 255 ∧
    255 % 128 = 127 ∧
    size7bitsToNormal 0 0 0 (255 % 128) = 127 ∧
    size7bitsToNormal 0 0 0 255 ≠ size7bitsToNormal 0 0 0 (255 % 128) := by
  refine ⟨by decide, by decide, by decide, by decide⟩

end MP3ReaderModel
